import Mathlib

/-!
Verification of the collection-state subsystem of a React component library.

The development shallowly embeds the state-management layer described by the
specification (pagination, filter serialization, bulk selection, resource-list
orchestration, infinite scroll, virtualization) together with three concrete
components whose sources are present (FAQAccordion, SearchSuggestions,
SimilarItems), and proves or refutes the stated properties.
-/

set_option autoImplicit false

/- ## Virtualized windowing -/

/-- Modelled from the spec: the hook useVirtualList is not present in the
sources (only re-exported), so the windowing arithmetic follows section 4.6 of
the specification. Start index of the render window. -/
def vStartIndex (scrollOffset estimatedItemSize overscan : Int) : Int :=
  max 0 (Int.ediv scrollOffset estimatedItemSize - overscan)

/-- Modelled from the spec: number of visible items plus the overscan on both
sides, with the ceiling division written out for integers. -/
def vVisibleCount (viewportSize estimatedItemSize overscan : Int) : Int :=
  Int.ediv (viewportSize + estimatedItemSize - 1) estimatedItemSize + 2 * overscan

/-- Modelled from the spec: end index of the render window. -/
def vEndIndex (itemCount startIndex visibleCount : Int) : Int :=
  min (itemCount - 1) (startIndex + visibleCount)

/-- Modelled from the spec: the render window as the list of indices from the
start index to the end index inclusive, empty when the end precedes the
start. -/
def vWindow (itemCount estimatedItemSize viewportSize scrollOffset overscan : Int) :
    List Int :=
  let s := vStartIndex scrollOffset estimatedItemSize overscan
  let e := vEndIndex itemCount s (vVisibleCount viewportSize estimatedItemSize overscan)
  (List.range (e + 1 - s).toNat).map (fun k => s + (k : Int))

/- ## Pagination state -/

/-- Modelled from the spec: the hook usePaginationState is not present in the
sources (only re-exported), so the page state follows sections 3 and 4.1 of
the specification. -/
structure PageState where
  page : Nat
  pageSize : Nat
  totalItems : Nat
  deriving DecidableEq

/-- Modelled from the spec: total number of pages, the ceiling of
totalItems divided by pageSize, which is 0 when totalItems is 0. -/
def PageState.totalPages (s : PageState) : Nat :=
  (s.totalItems + s.pageSize - 1) / s.pageSize

/-- Modelled from the spec: clamp a candidate page into the valid interval,
which is 1 to totalPages, or the single page 1 when totalPages is 0. -/
def PageState.clampPage (s : PageState) (n : Nat) : Nat :=
  min (max n 1) (max s.totalPages 1)

/-- Modelled from the spec: setPage clamps the requested page. -/
def PageState.setPage (s : PageState) (n : Nat) : PageState :=
  { s with page := s.clampPage n }

/-- Modelled from the spec: setTotal updates the total count and re-clamps
the current page against the recomputed totalPages. -/
def PageState.setTotal (s : PageState) (n : Nat) : PageState :=
  let s1 : PageState := { s with totalItems := n }
  { s1 with page := s1.clampPage s.page }

/-- Modelled from the spec: setPageSize rejects a non-positive size, keeps
the first item index stable, and re-clamps the resulting page. -/
def PageState.setPageSize (s : PageState) (n : Nat) : Option PageState :=
  if n = 0 then none
  else
    let firstItemIndex := (s.page - 1) * s.pageSize
    let s1 : PageState := { s with pageSize := n }
    some { s1 with page := s1.clampPage (firstItemIndex / n + 1) }

/-- Modelled from the spec: nextPage is a no-op at the upper boundary. -/
def PageState.nextPage (s : PageState) : PageState :=
  if s.page < s.totalPages then { s with page := s.page + 1 } else s

/-- Modelled from the spec: previousPage is a no-op at the lower boundary. -/
def PageState.previousPage (s : PageState) : PageState :=
  if 1 < s.page then { s with page := s.page - 1 } else s

/-- Modelled from the spec: reset returns to the first page. -/
def PageState.reset (s : PageState) : PageState :=
  { s with page := 1 }

/-- Invariant of a pagination state: positive page size and a current page
inside the interval from 1 to the maximum of totalPages and 1. -/
def PageState.Inv (s : PageState) : Prop :=
  0 < s.pageSize ∧ 1 ≤ s.page ∧ s.page ≤ max s.totalPages 1

instance (s : PageState) : Decidable s.Inv := by
  unfold PageState.Inv
  infer_instance

lemma pageState_le_totalPages_mul (s : PageState) (hp : 0 < s.pageSize) :
    s.totalItems ≤ s.totalPages * s.pageSize := by
  have h1 := le_smul_ceilDiv hp (b := s.totalItems)
  rw [Nat.ceilDiv_eq_add_pred_div] at h1
  simpa [smul_eq_mul, Nat.mul_comm, PageState.totalPages] using h1

lemma pageState_totalPages_min (s : PageState) (hp : 0 < s.pageSize) (k : Nat)
    (hk : s.totalItems ≤ k * s.pageSize) : s.totalPages ≤ k := by
  have h1 := (ceilDiv_le_iff_le_mul hp (b := s.totalItems) (c := k)).2
    (by rw [Nat.mul_comm]; exact hk)
  rw [Nat.ceilDiv_eq_add_pred_div] at h1
  exact h1

/-- The C2 claim: totalPages is the ceiling of totalItems over pageSize
(characterized as the least k with totalItems at most k times pageSize, hence
0 when totalItems is 0), and every pagination operation leaves the current
page inside the interval from 1 to the maximum of totalPages and 1. -/
theorem c2_pagination_invariant (s : PageState) (h : s.Inv) (n m : Nat) :
    (s.totalItems ≤ s.totalPages * s.pageSize ∧
      ∀ k, s.totalItems ≤ k * s.pageSize → s.totalPages ≤ k) ∧
    (s.setPage n).Inv ∧ (s.setTotal n).Inv ∧
    (∀ t, s.setPageSize m = some t → t.Inv) ∧
    (s.nextPage).Inv ∧ (s.previousPage).Inv ∧ (s.reset).Inv := by
  obtain ⟨hp, hlo, hhi⟩ := h
  refine ⟨⟨pageState_le_totalPages_mul s hp, fun k hk => pageState_totalPages_min s hp k hk⟩,
    ?_, ?_, ?_, ?_, ?_, ?_⟩
  · simp only [PageState.setPage, PageState.Inv, PageState.clampPage, PageState.totalPages]
    exact ⟨hp, by omega, by omega⟩
  · simp only [PageState.setTotal, PageState.Inv, PageState.clampPage, PageState.totalPages]
    exact ⟨hp, by omega, by omega⟩
  · intro t ht
    simp only [PageState.setPageSize] at ht
    by_cases hm : m = 0
    · simp [hm] at ht
    · simp only [hm, if_false, Option.some.injEq] at ht
      subst ht
      simp only [PageState.Inv, PageState.clampPage, PageState.totalPages]
      exact ⟨by omega, by omega, by omega⟩
  · simp only [PageState.nextPage, PageState.Inv, PageState.totalPages] at *
    by_cases hlt : s.page < (s.totalItems + s.pageSize - 1) / s.pageSize
    · simp only [hlt, if_true]
      exact ⟨hp, by omega, by omega⟩
    · simp only [hlt, if_false]
      exact ⟨hp, hlo, hhi⟩
  · simp only [PageState.previousPage, PageState.Inv, PageState.totalPages] at *
    by_cases hgt : 1 < s.page
    · simp only [hgt, if_true]
      exact ⟨hp, by omega, by omega⟩
    · simp only [hgt, if_false]
      exact ⟨hp, hlo, hhi⟩
  · simp only [PageState.reset, PageState.Inv, PageState.totalPages]
    exact ⟨hp, by omega, by omega⟩

/-- Witness for C2 at the concrete state of the scenario in the spec: page 1,
page size 10, 95 total items, whose totalPages is 10. -/
theorem c2_pagination_invariant_witness :
    (PageState.mk 1 10 95).Inv ∧
    ((PageState.mk 1 10 95).totalItems ≤
        (PageState.mk 1 10 95).totalPages * (PageState.mk 1 10 95).pageSize ∧
      ∀ k, (PageState.mk 1 10 95).totalItems ≤ k * (PageState.mk 1 10 95).pageSize →
        (PageState.mk 1 10 95).totalPages ≤ k) ∧
    ((PageState.mk 1 10 95).setPage 20).Inv ∧ ((PageState.mk 1 10 95).setTotal 20).Inv ∧
    (∀ t, (PageState.mk 1 10 95).setPageSize 7 = some t → t.Inv) ∧
    ((PageState.mk 1 10 95).nextPage).Inv ∧ ((PageState.mk 1 10 95).previousPage).Inv ∧
    ((PageState.mk 1 10 95).reset).Inv :=
  ⟨by decide, c2_pagination_invariant (PageState.mk 1 10 95) (by decide) 20 7⟩

/-- Counterexample to C5 as stated: with one item of size 1, viewport 1, no
overscan, and scroll offset 5 (all inputs satisfying the stated hypotheses),
the start index is 5 while the end index is 0, so the chain
0 ≤ startIndex ≤ endIndex fails. -/
theorem c5_window_counterexample :
    (0 : Int) < 1 ∧ (0 : Int) < 1 ∧ (0 : Int) ≤ 5 ∧ (0 : Int) ≤ 1 ∧ (0 : Int) ≤ 0 ∧
    ¬ (vStartIndex 5 1 0 ≤
        vEndIndex 1 (vStartIndex 5 1 0) (vVisibleCount 1 1 0)) := by
  decide

/-- The C5 claim, amended: under the stated hypotheses the window is empty
when itemCount is 0, and whenever itemCount is positive AND the start index
does not already lie past the last item (the condition the unclamped formula
of the spec forces), the chain 0 ≤ startIndex ≤ endIndex ≤ itemCount - 1
holds. -/
theorem c5_window_bounds (itemCount estimatedItemSize viewportSize scrollOffset overscan : Int)
    (hsize : 0 < estimatedItemSize) (hoff : 0 ≤ scrollOffset)
    (hvp : 0 ≤ viewportSize) (hov : 0 ≤ overscan) :
    (itemCount = 0 →
      vWindow itemCount estimatedItemSize viewportSize scrollOffset overscan = []) ∧
    (0 < itemCount →
      vStartIndex scrollOffset estimatedItemSize overscan ≤ itemCount - 1 →
      0 ≤ vStartIndex scrollOffset estimatedItemSize overscan ∧
      vStartIndex scrollOffset estimatedItemSize overscan ≤
        vEndIndex itemCount (vStartIndex scrollOffset estimatedItemSize overscan)
          (vVisibleCount viewportSize estimatedItemSize overscan) ∧
      vEndIndex itemCount (vStartIndex scrollOffset estimatedItemSize overscan)
          (vVisibleCount viewportSize estimatedItemSize overscan) ≤ itemCount - 1) := by
  have hs0 : 0 ≤ vStartIndex scrollOffset estimatedItemSize overscan :=
    le_max_left 0 _
  have hvc : 0 ≤ vVisibleCount viewportSize estimatedItemSize overscan := by
    have h1 : 0 ≤ Int.ediv (viewportSize + estimatedItemSize - 1) estimatedItemSize :=
      Int.ediv_nonneg (by omega) (le_of_lt hsize)
    unfold vVisibleCount
    omega
  constructor
  · intro h0
    subst h0
    unfold vWindow vEndIndex
    have he : (min ((0 : Int) - 1)
        (vStartIndex scrollOffset estimatedItemSize overscan +
          vVisibleCount viewportSize estimatedItemSize overscan) + 1 -
        vStartIndex scrollOffset estimatedItemSize overscan).toNat = 0 := by
      omega
    simp [he]
    intro x
    omega
  · intro hpos hstart
    refine ⟨hs0, le_min hstart (by omega), min_le_left _ _⟩

/-- Witness for C5 at concrete inputs: 100 items of size 20, viewport 60,
scroll offset 200, overscan 2. -/
theorem c5_window_bounds_witness :
    (0 : Int) < 20 ∧ (0 : Int) ≤ 200 ∧ (0 : Int) ≤ 60 ∧ (0 : Int) ≤ 2 ∧
    (((100 : Int) = 0 → vWindow 100 20 60 200 2 = []) ∧
      (0 < (100 : Int) →
        vStartIndex 200 20 2 ≤ 100 - 1 →
        0 ≤ vStartIndex 200 20 2 ∧
        vStartIndex 200 20 2 ≤ vEndIndex 100 (vStartIndex 200 20 2) (vVisibleCount 60 20 2) ∧
        vEndIndex 100 (vStartIndex 200 20 2) (vVisibleCount 60 20 2) ≤ 100 - 1)) :=
  ⟨by decide, by decide, by decide, by decide,
    c5_window_bounds 100 20 60 200 2 (by decide) (by decide) (by decide) (by decide)⟩

/- ## Bulk selection state -/

/-- Modelled from the spec: the hook useBulkSelection is not present in the
sources (only re-exported), so the selection state follows sections 3 and 4.3
of the specification; items are represented by their string ids. -/
structure SelectionState where
  items : List String
  selectedIds : List String
  deriving DecidableEq

/-- Position of an id in the reference list, none when absent. -/
def selIndexOf : List String → String → Option Nat
  | [], _ => none
  | x :: xs, a => if x = a then some 0 else (selIndexOf xs a).map (· + 1)

/-- Modelled from the spec: toggle one id in or out of the selection. -/
def SelectionState.toggle (st : SelectionState) (a : String) : SelectionState :=
  if a ∈ st.selectedIds then { st with selectedIds := st.selectedIds.erase a }
  else { st with selectedIds := st.selectedIds ++ [a] }

/-- Modelled from the spec: selectAll selects the full id set of the
currently visible item list. -/
def SelectionState.selectAll (st : SelectionState) : SelectionState :=
  { st with selectedIds := st.items }

/-- Modelled from the spec: selectNone clears the selection. -/
def SelectionState.selectNone (st : SelectionState) : SelectionState :=
  { st with selectedIds := [] }

/-- Modelled from the spec: selectRange resolves both ids in the current
list ordering, is a silent no-op when either is absent, and otherwise selects
the inclusive, order-independent index range. -/
def SelectionState.selectRange (st : SelectionState) (a b : String) : SelectionState :=
  match selIndexOf st.items a, selIndexOf st.items b with
  | some i, some j =>
    let lo := min i j
    let rangeIds := (st.items.drop lo).take (max i j + 1 - lo)
    { st with selectedIds := st.selectedIds ∪ rangeIds }
  | _, _ => st

/-- Modelled from the spec: reconciliation replaces the reference list and
silently drops selected entries no longer present in it. -/
def SelectionState.reconcile (st : SelectionState) (l : List String) : SelectionState :=
  { items := l, selectedIds := st.selectedIds.filter (fun x => x ∈ l) }

/-- One step of the selection life-cycle: a selection operation or a
replacement of the reference list (which reconciles). -/
inductive SelEvent where
  | toggle (a : String)
  | selectAll
  | selectNone
  | selectRange (a b : String)
  | replaceList (l : List String)

/-- Apply one selection event. -/
def selStep (st : SelectionState) : SelEvent → SelectionState
  | .toggle a => st.toggle a
  | .selectAll => st.selectAll
  | .selectNone => st.selectNone
  | .selectRange a b => st.selectRange a b
  | .replaceList l => st.reconcile l

/-- Apply a sequence of selection events. -/
def selRun (st : SelectionState) (es : List SelEvent) : SelectionState :=
  es.foldl selStep st

/-- The C3 claim: for any sequence of selection operations interleaved with
list replacements, after a reconciliation the selected ids form a subset of
the ids of the current item list; and the concrete scenario over the items
A, B, C, D holds. -/
theorem c3_selection_invariant :
    (∀ (st : SelectionState) (es : List SelEvent) (l : List String),
      ∀ x ∈ (selRun st (es ++ [SelEvent.replaceList l])).selectedIds,
        x ∈ (selRun st (es ++ [SelEvent.replaceList l])).items) ∧
    ((selStep (SelectionState.mk ["A", "B", "C", "D"] [])
        (SelEvent.selectRange "B" "D")).selectedIds = ["B", "C", "D"] ∧
      (selStep (selStep (SelectionState.mk ["A", "B", "C", "D"] [])
          (SelEvent.selectRange "B" "D"))
        (SelEvent.replaceList ["A", "C"])).selectedIds = ["C"]) := by
  constructor
  · intro st es l x hx
    rw [selRun, List.foldl_append] at hx ⊢
    simp only [List.foldl_cons, List.foldl_nil, selStep, SelectionState.reconcile] at hx ⊢
    simp only [List.mem_filter, decide_eq_true_eq] at hx
    exact hx.2
  · exact ⟨rfl, rfl⟩

/-- Witness for C3: a one-element list with its element selected, reconciled
against the same list, keeps the element selected and inside the list. -/
theorem c3_selection_invariant_witness :
    "A" ∈ (selRun (SelectionState.mk ["A"] ["A"])
        ([] ++ [SelEvent.replaceList ["A"]])).selectedIds ∧
    "A" ∈ (selRun (SelectionState.mk ["A"] ["A"])
        ([] ++ [SelEvent.replaceList ["A"]])).items :=
  ⟨by decide, c3_selection_invariant.1 (SelectionState.mk ["A"] ["A"]) []
    ["A"] "A" (by decide)⟩

/- ## Filter state and URL serialization -/

/-- Modelled from the spec: sort direction of the filter state. -/
inductive SortDirection where
  | asc
  | desc
  deriving DecidableEq

/-- Token written into the query string for a sort direction. -/
def SortDirection.token : SortDirection → List Char
  | .asc => ['a', 's', 'c']
  | .desc => ['d', 'e', 's', 'c']

/-- Modelled from the spec: the hooks useFilters and useUrlFilters are not
present in the sources (only re-exported), so the filter state follows
sections 3 and 4.2 of the specification: a mapping from filter keys to
values in which keys with empty values are absent, plus an optional sort
field and direction. Query strings are modelled as lists of characters. -/
structure FilterState where
  values : List (List Char × List Char)
  sort : Option (List Char × SortDirection)
  deriving DecidableEq

/-- Reserved query key for the sort field. -/
def sortKey : List Char := ['s', 'o', 'r', 't']

/-- Reserved query key for the sort direction. -/
def dirKey : List Char := ['d', 'i', 'r']

/-- Join fields with a separator character. -/
def joinSep (c : Char) : List (List Char) → List Char
  | [] => []
  | [f] => f
  | f :: g :: rest => f ++ c :: joinSep c (g :: rest)

/-- Query token for one key and value pair. -/
def pairToken (kv : List Char × List Char) : List Char :=
  kv.1 ++ '=' :: kv.2

/-- Modelled from the spec: serialize values plus sort into a deterministic
query string, one key=value field per entry, joined by ampersands, with the
sort field and direction appended last. -/
def FilterState.serialize (s : FilterState) : List Char :=
  joinSep '&' (s.values.map pairToken ++
    (match s.sort with
     | none => []
     | some (f, d) => [sortKey ++ '=' :: f, dirKey ++ '=' :: d.token]))

/-- Split a character list at every occurrence of the separator. -/
def splitOnChar (c : Char) : List Char → List (List Char)
  | [] => [[]]
  | x :: xs =>
    match splitOnChar c xs with
    | [] => [[]]
    | f :: rest => if x = c then [] :: f :: rest else (x :: f) :: rest

/-- Recognize a sort direction token; unknown tokens are ignored. -/
def parseDir (v : List Char) : Option SortDirection :=
  if v = ['a', 's', 'c'] then some SortDirection.asc
  else if v = ['d', 'e', 's', 'c'] then some SortDirection.desc
  else none

/-- Modelled from the spec: hydrate one query field into the accumulating
triple of values, sort field, and sort direction; malformed fields and empty
values are ignored. -/
def parseStep (acc : List (List Char × List Char) × Option (List Char) × Option SortDirection)
    (field : List Char) :
    List (List Char × List Char) × Option (List Char) × Option SortDirection :=
  match splitOnChar '=' field with
  | [k, v] =>
    if k = sortKey then (acc.1, some v, acc.2.2)
    else if k = dirKey then (acc.1, acc.2.1, parseDir v)
    else if v = [] then acc
    else (acc.1 ++ [(k, v)], acc.2.1, acc.2.2)
  | _ => acc

/-- Modelled from the spec: re-hydrate a filter state from a query string;
the sort pair is present only when both the field and the direction were
recognized. -/
def FilterState.parse (q : List Char) : FilterState :=
  let r := (splitOnChar '&' q).foldl parseStep ([], none, none)
  { values := r.1,
    sort :=
      match r.2.1, r.2.2 with
      | some f, some d => some (f, d)
      | _, _ => none }

/-- A serializable token: nonempty and free of the two separator
characters. -/
def goodToken (t : List Char) : Prop :=
  t ≠ [] ∧ '&' ∉ t ∧ '=' ∉ t

instance (t : List Char) : Decidable (goodToken t) := by
  unfold goodToken
  infer_instance

/-- Well-formedness of the optional sort pair: its field is a token. -/
def sortOk : Option (List Char × SortDirection) → Prop
  | none => True
  | some (f, _) => goodToken f

instance : (o : Option (List Char × SortDirection)) → Decidable (sortOk o)
  | none => isTrue trivial
  | some (f, _) => inferInstanceAs (Decidable (goodToken f))

/-- Well-formedness of a filter state as the spec describes it: keys are
distinct, keys and values are nonempty separator-free tokens, keys avoid the
two reserved names, and the sort field is itself a token. -/
def FilterState.WellFormed (s : FilterState) : Prop :=
  (s.values.map Prod.fst).Nodup ∧
  (∀ kv ∈ s.values,
    goodToken kv.1 ∧ goodToken kv.2 ∧ kv.1 ≠ sortKey ∧ kv.1 ≠ dirKey) ∧
  sortOk s.sort

instance (s : FilterState) : Decidable s.WellFormed := by
  unfold FilterState.WellFormed
  infer_instance

lemma splitOnChar_ne_nil (c : Char) (l : List Char) : splitOnChar c l ≠ [] := by
  induction l with
  | nil => simp [splitOnChar]
  | cons x xs ih =>
    rw [splitOnChar]
    cases hsp : splitOnChar c xs with
    | nil => exact absurd hsp ih
    | cons f rest =>
      by_cases hx : x = c <;> simp [hx]

lemma splitOnChar_no_sep (c : Char) (l : List Char) (h : c ∉ l) :
    splitOnChar c l = [l] := by
  induction l with
  | nil => rfl
  | cons x xs ih =>
    have hx : ¬ x = c := fun he => h (he ▸ List.mem_cons_self x xs)
    have hxs : c ∉ xs := fun hm => h (List.mem_cons_of_mem x hm)
    rw [splitOnChar, ih hxs]
    simp [hx]

lemma splitOnChar_append_sep (c : Char) (l r : List Char) (h : c ∉ l) :
    splitOnChar c (l ++ c :: r) = l :: splitOnChar c r := by
  induction l with
  | nil =>
    rw [List.nil_append, splitOnChar]
    cases hsp : splitOnChar c r with
    | nil => exact absurd hsp (splitOnChar_ne_nil c r)
    | cons f rest => simp
  | cons x xs ih =>
    have hx : ¬ x = c := fun he => h (he ▸ List.mem_cons_self x xs)
    have hxs : c ∉ xs := fun hm => h (List.mem_cons_of_mem x hm)
    rw [List.cons_append, splitOnChar, ih hxs]
    simp [hx]

lemma splitOnChar_joinSep (c : Char) (ps : List (List Char)) (hne : ps ≠ [])
    (h : ∀ p ∈ ps, c ∉ p) : splitOnChar c (joinSep c ps) = ps := by
  induction ps with
  | nil => exact absurd rfl hne
  | cons f rest ih =>
    cases rest with
    | nil => exact splitOnChar_no_sep c f (h f (List.mem_cons_self f []))
    | cons g rs =>
      rw [joinSep, splitOnChar_append_sep c f _ (h f (List.mem_cons_self f _)),
        ih (by simp) (fun p hp => h p (List.mem_cons_of_mem f hp))]

lemma splitOnChar_pair (k v : List Char) (hk : '=' ∉ k) (hv : '=' ∉ v) :
    splitOnChar '=' (k ++ '=' :: v) = [k, v] := by
  rw [splitOnChar_append_sep _ _ _ hk, splitOnChar_no_sep _ _ hv]

lemma parseStep_pair (acc : List (List Char × List Char) × Option (List Char) ×
      Option SortDirection) (kv : List Char × List Char)
    (h : goodToken kv.1 ∧ goodToken kv.2 ∧ kv.1 ≠ sortKey ∧ kv.1 ≠ dirKey) :
    parseStep acc (pairToken kv) = (acc.1 ++ [kv], acc.2.1, acc.2.2) := by
  obtain ⟨⟨_, _, hk⟩, ⟨hvne, _, hv⟩, hs, hd⟩ := h
  rw [parseStep, pairToken]
  rw [splitOnChar_pair kv.1 kv.2 hk hv]
  simp [hs, hd, hvne]

lemma foldl_parseStep_values (vs : List (List Char × List Char))
    (acc1 : List (List Char × List Char)) (o1 : Option (List Char))
    (o2 : Option SortDirection)
    (h : ∀ kv ∈ vs, goodToken kv.1 ∧ goodToken kv.2 ∧ kv.1 ≠ sortKey ∧ kv.1 ≠ dirKey) :
    (vs.map pairToken).foldl parseStep (acc1, o1, o2) = (acc1 ++ vs, o1, o2) := by
  induction vs generalizing acc1 with
  | nil => simp
  | cons kv rest ih =>
    rw [List.map_cons, List.foldl_cons,
      parseStep_pair (acc1, o1, o2) kv (h kv (List.mem_cons_self kv rest))]
    rw [ih (acc1 ++ [kv]) (fun p hp => h p (List.mem_cons_of_mem kv hp))]
    simp

lemma sortDirection_token_sep (d : SortDirection) :
    '&' ∉ d.token ∧ '=' ∉ d.token := by
  cases d <;> decide

lemma pairToken_no_amp (kv : List Char × List Char)
    (h : goodToken kv.1 ∧ goodToken kv.2 ∧ kv.1 ≠ sortKey ∧ kv.1 ≠ dirKey) :
    '&' ∉ pairToken kv := by
  obtain ⟨⟨_, hk, _⟩, ⟨_, hv, _⟩, _, _⟩ := h
  rw [pairToken]
  intro hm
  rcases List.mem_append.1 hm with h1 | h2
  · exact hk h1
  · rcases List.mem_cons.1 h2 with h3 | h4
    · exact absurd h3 (by decide)
    · exact hv h4

/-- The C4 claim: serializing a well-formed filter state to a query string
and re-hydrating yields an equal filter state, and the concrete scenario of
the spec serializes to the expected deterministic string and parses back. -/
theorem c4_filter_roundtrip (s : FilterState) (h : s.WellFormed) :
    FilterState.parse s.serialize = s ∧
    FilterState.serialize
        (FilterState.mk [("category".toList, "shoes".toList)]
          (some ("price".toList, SortDirection.asc))) =
      "category=shoes&sort=price&dir=asc".toList ∧
    FilterState.parse ("category=shoes&sort=price&dir=asc".toList) =
      FilterState.mk [("category".toList, "shoes".toList)]
        (some ("price".toList, SortDirection.asc)) := by
  refine ⟨?_, by decide, by decide⟩
  obtain ⟨vals, srt⟩ := s
  obtain ⟨hnodup, hvals, hsort⟩ := h
  have htok : ∀ p ∈ vals.map pairToken, '&' ∉ p := by
    intro p hp
    obtain ⟨kv, hkv, rfl⟩ := List.mem_map.1 hp
    exact pairToken_no_amp kv (hvals kv hkv)
  cases srt with
  | none =>
    cases vals with
    | nil => decide
    | cons kv0 rest =>
      show FilterState.parse
        (joinSep '&' ((kv0 :: rest).map pairToken ++ [])) = _
      rw [List.append_nil]
      simp only [FilterState.parse]
      rw [splitOnChar_joinSep '&' _ (by simp) htok]
      rw [foldl_parseStep_values (kv0 :: rest) [] none none hvals]
      simp
  | some fd =>
    obtain ⟨f, d⟩ := fd
    have hf : goodToken f := hsort
    have htokens : ∀ p ∈ vals.map pairToken ++
        [sortKey ++ '=' :: f, dirKey ++ '=' :: d.token], '&' ∉ p := by
      intro p hp
      rcases List.mem_append.1 hp with h1 | h2
      · exact htok p h1
      · rcases List.mem_cons.1 h2 with h3 | h4
        · subst h3
          intro hm
          rcases List.mem_append.1 hm with h5 | h6
          · exact absurd h5 (by decide)
          · rcases List.mem_cons.1 h6 with h7 | h8
            · exact absurd h7 (by decide)
            · exact hf.2.1 h8
        · rcases List.mem_cons.1 h4 with h5 | h6
          · subst h5
            intro hm
            rcases List.mem_append.1 hm with h7 | h8
            · exact absurd h7 (by decide)
            · rcases List.mem_cons.1 h8 with h9 | h10
              · exact absurd h9 (by decide)
              · exact (sortDirection_token_sep d).1 h10
          · exact absurd h6 (List.not_mem_nil p)
    show FilterState.parse
      (joinSep '&' (vals.map pairToken ++
        [sortKey ++ '=' :: f, dirKey ++ '=' :: d.token])) = _
    simp only [FilterState.parse]
    rw [splitOnChar_joinSep '&' _ (by simp) htokens]
    rw [List.foldl_append]
    rw [foldl_parseStep_values vals [] none none hvals]
    have h1 : parseStep ([] ++ vals, none, none) (sortKey ++ '=' :: f) =
        (([] : List (List Char × List Char)) ++ vals, some f, none) := by
      rw [parseStep, splitOnChar_pair sortKey f (by decide) hf.2.2]
      simp
    have h2 : parseStep (([] : List (List Char × List Char)) ++ vals, some f, none)
        (dirKey ++ '=' :: d.token) =
        (([] : List (List Char × List Char)) ++ vals, some f, some d) := by
      rw [parseStep, splitOnChar_pair dirKey d.token (by decide) (sortDirection_token_sep d).2]
      have hne : ¬ dirKey = sortKey := by decide
      have hdir : parseDir d.token = some d := by cases d <;> decide
      simp [hne, hdir]
    rw [List.foldl_cons, h1, List.foldl_cons, h2, List.foldl_nil]
    simp

/-- Witness for C4 at the scenario state of the spec: one filter value for
category plus an ascending price sort. -/
theorem c4_filter_roundtrip_witness :
    (FilterState.mk [("category".toList, "shoes".toList)]
        (some ("price".toList, SortDirection.asc))).WellFormed ∧
    FilterState.parse
        (FilterState.mk [("category".toList, "shoes".toList)]
          (some ("price".toList, SortDirection.asc))).serialize =
      FilterState.mk [("category".toList, "shoes".toList)]
        (some ("price".toList, SortDirection.asc)) :=
  ⟨by decide,
    (c4_filter_roundtrip
      (FilterState.mk [("category".toList, "shoes".toList)]
        (some ("price".toList, SortDirection.asc))) (by decide)).1⟩

/- ## Resource list orchestrator -/

/-- Modelled from the spec: the request descriptor combining pagination and
filter state, whose identity gates whether a new fetch is issued. -/
structure RequestDescriptor where
  page : Nat
  pageSize : Nat
  filters : FilterState
  deriving DecidableEq

/-- Modelled from the spec: the data, loading, error triple exposed by the
orchestrator. -/
structure ListResult (α : Type) where
  items : List α
  totalItems : Nat
  loading : Bool
  error : Option String
  deriving DecidableEq

/-- Outcome of one fetch collaborator call: resolution or rejection. -/
inductive FetchOutcome (α : Type) where
  | success (items : List α) (total : Nat)
  | failure (err : String)
  deriving DecidableEq

/-- Events of the orchestrator life-cycle: issuing a request for a
descriptor, or the asynchronous resolution of the fetch with a given
sequence number. -/
inductive OrchEvent (α : Type) where
  | issue (d : RequestDescriptor)
  | resolve (seq : Nat) (out : FetchOutcome α)
  deriving DecidableEq

/-- Modelled from the spec: the hooks useResourceList, useFetchResourceList
and useResourceListState are not present in the sources (only re-exported),
so the orchestrator follows sections 4.4, 5 and 7 of the specification with
the monotonically increasing request sequence number the spec names as the
canonical stale-response guard. -/
structure Orch (α : Type) where
  seqCounter : Nat
  lastDesc : Option RequestDescriptor
  result : ListResult α
  deriving DecidableEq

/-- Commit a fetch outcome into the result: a success replaces items and
total, a failure records the error and keeps the previous items; in both
cases loading clears. The failure is captured into state, never raised. -/
def commitOutcome {α : Type} (r : ListResult α) :
    FetchOutcome α → ListResult α
  | .success items total =>
    { items := items, totalItems := total, loading := false, error := none }
  | .failure e => { r with error := some e, loading := false }

/-- Modelled from the spec: the orchestrator starts with an empty result and
no request issued. -/
def orchInit (α : Type) : Orch α :=
  { seqCounter := 0, lastDesc := none,
    result := { items := [], totalItems := 0, loading := false, error := none } }

/-- A resolution with sequence number s is allowed to commit exactly when s
matches the most recently issued request. -/
def commitsAt {α : Type} (o : Orch α) (s : Nat) : Prop :=
  s = o.seqCounter ∧ 0 < s

instance {α : Type} (o : Orch α) (s : Nat) :
    Decidable (commitsAt o s) := by
  unfold commitsAt
  infer_instance

/-- Modelled from the spec: one orchestrator step. Issuing bumps the
sequence counter, stores the descriptor and sets loading; a resolution
commits only when its sequence number matches the last issued one and is
otherwise discarded without any state write. -/
def orchStep {α : Type} (o : Orch α) : OrchEvent α → Orch α
  | .issue d =>
    { o with
      seqCounter := o.seqCounter + 1
      lastDesc := some d
      result := { o.result with loading := true } }
  | .resolve s out =>
    if commitsAt o s then { o with result := commitOutcome o.result out } else o

/-- Run a list of orchestrator events. -/
def orchRun {α : Type} (o : Orch α) (es : List (OrchEvent α)) :
    Orch α :=
  es.foldl orchStep o

lemma orchStep_resolve_seq {α : Type} (o : Orch α) (s : Nat)
    (out : FetchOutcome α) :
    (orchStep o (OrchEvent.resolve s out)).seqCounter = o.seqCounter := by
  rw [show orchStep o (OrchEvent.resolve s out) =
    if commitsAt o s then { o with result := commitOutcome o.result out } else o from rfl]
  split <;> rfl

lemma orchStep_seq_mono {α : Type} (o : Orch α) (e : OrchEvent α) :
    o.seqCounter ≤ (orchStep o e).seqCounter := by
  cases e with
  | issue d => exact Nat.le_succ _
  | resolve s out => rw [orchStep_resolve_seq]

lemma orchRun_seq_mono {α : Type} (o : Orch α)
    (es : List (OrchEvent α)) : o.seqCounter ≤ (orchRun o es).seqCounter := by
  induction es generalizing o with
  | nil => exact Nat.le_refl _
  | cons e rest ih =>
    exact Nat.le_trans (orchStep_seq_mono o e) (ih (orchStep o e))

lemma orchStep_stale {α : Type} (o : Orch α) (s : Nat)
    (out : FetchOutcome α) (h : ¬ commitsAt o s) :
    orchStep o (OrchEvent.resolve s out) = o := by
  rw [show orchStep o (OrchEvent.resolve s out) =
    if commitsAt o s then { o with result := commitOutcome o.result out } else o from rfl]
  exact if_neg h

lemma orchRun_stale {α : Type} (o : Orch α)
    (rs : List (Nat × FetchOutcome α)) (h : ∀ p ∈ rs, p.1 ≠ o.seqCounter) :
    orchRun o (rs.map (fun p => OrchEvent.resolve p.1 p.2)) = o := by
  induction rs with
  | nil => rfl
  | cons p rest ih =>
    rw [List.map_cons]
    show orchRun (orchStep o (OrchEvent.resolve p.1 p.2)) _ = o
    rw [orchStep_stale o p.1 p.2
      (fun hc => h p (List.mem_cons_self p rest) hc.1)]
    exact ih (fun q hq => h q (List.mem_cons_of_mem p hq))

lemma orchRun_append {α : Type} (o : Orch α) (l1 l2 : List (OrchEvent α)) :
    orchRun o (l1 ++ l2) = orchRun (orchRun o l1) l2 := by
  simp [orchRun, List.foldl_append]

lemma orchStep_commit {α : Type} (o : Orch α) (s : Nat) (out : FetchOutcome α)
    (h : commitsAt o s) :
    orchStep o (OrchEvent.resolve s out) =
      { o with result := commitOutcome o.result out } := by
  rw [show orchStep o (OrchEvent.resolve s out) =
    if commitsAt o s then { o with result := commitOutcome o.result out } else o from rfl]
  exact if_pos h

/-- The C1 claim: a resolution changes orchestrator state only when its
sequence number matches the most recently issued request; once a later
request B has committed, a resolution of an earlier request A is a no-op at
any later point; and from a state with all requests issued, any interleaving
of resolutions in which only the last-issued request appears with its
outcome (every other resolution being stale) leaves the ListResult equal to
the commit of that outcome, independent of resolution order. -/
theorem c1_last_request_wins {α : Type} :
    (∀ (o : Orch α) (s : Nat) (out : FetchOutcome α),
      orchStep o (OrchEvent.resolve s out) ≠ o → commitsAt o s) ∧
    (∀ (t1 : List (OrchEvent α)) (sB : Nat) (outB : FetchOutcome α),
      commitsAt (orchRun (orchInit α) t1) sB →
      ∀ (t2 : List (OrchEvent α)) (sA : Nat) (outA : FetchOutcome α), sA < sB →
      orchStep (orchRun (orchStep (orchRun (orchInit α) t1) (OrchEvent.resolve sB outB)) t2)
          (OrchEvent.resolve sA outA) =
        orchRun (orchStep (orchRun (orchInit α) t1) (OrchEvent.resolve sB outB)) t2) ∧
    (∀ (o : Orch α) (rs1 rs2 : List (Nat × FetchOutcome α)) (out : FetchOutcome α),
      0 < o.seqCounter →
      (∀ p ∈ rs1, p.1 ≠ o.seqCounter) →
      (∀ p ∈ rs2, p.1 ≠ o.seqCounter) →
      (orchRun o ((rs1 ++ (o.seqCounter, out) :: rs2).map
          (fun p => OrchEvent.resolve p.1 p.2))).result =
        commitOutcome o.result out) := by
  refine ⟨?_, ?_, ?_⟩
  · intro o s out hne
    by_contra hnc
    exact hne (orchStep_stale o s out hnc)
  · intro t1 sB outB hB t2 sA outA hAB
    apply orchStep_stale
    intro hc
    have h2seq : (orchStep (orchRun (orchInit α) t1) (OrchEvent.resolve sB outB)).seqCounter =
        (orchRun (orchInit α) t1).seqCounter := orchStep_resolve_seq _ _ _
    have h3 := orchRun_seq_mono
      (orchStep (orchRun (orchInit α) t1) (OrchEvent.resolve sB outB)) t2
    rw [h2seq, ← hB.1] at h3
    rw [hc.1] at hAB
    omega
  · intro o rs1 rs2 out hpos h1 h2
    rw [List.map_append, orchRun_append, orchRun_stale o rs1 h1, List.map_cons]
    show (orchRun (orchStep o (OrchEvent.resolve o.seqCounter out)) _).result = _
    rw [orchStep_commit o o.seqCounter out ⟨rfl, hpos⟩]
    have e2 : orchRun { o with result := commitOutcome o.result out }
        (rs2.map (fun p => OrchEvent.resolve p.1 p.2)) =
        { o with result := commitOutcome o.result out } :=
      orchRun_stale _ rs2 (fun p hp => h2 p hp)
    rw [e2]

/-- Witness for C1: two requests issued, the second commits, then a
resolution of the first is a no-op; and the out-of-order interleaving around
the last-issued request commits exactly its outcome. -/
theorem c1_last_request_wins_witness :
    commitsAt (orchRun (orchInit Nat)
      [OrchEvent.issue (RequestDescriptor.mk 1 20 (FilterState.mk [] none)),
        OrchEvent.issue (RequestDescriptor.mk 2 20 (FilterState.mk [] none))]) 2 ∧
    (1 : Nat) < 2 ∧
    orchStep (orchRun (orchStep (orchRun (orchInit Nat)
          [OrchEvent.issue (RequestDescriptor.mk 1 20 (FilterState.mk [] none)),
            OrchEvent.issue (RequestDescriptor.mk 2 20 (FilterState.mk [] none))])
          (OrchEvent.resolve 2 (FetchOutcome.success [7] 1))) [])
        (OrchEvent.resolve 1 (FetchOutcome.success [9] 1)) =
      orchRun (orchStep (orchRun (orchInit Nat)
          [OrchEvent.issue (RequestDescriptor.mk 1 20 (FilterState.mk [] none)),
            OrchEvent.issue (RequestDescriptor.mk 2 20 (FilterState.mk [] none))])
          (OrchEvent.resolve 2 (FetchOutcome.success [7] 1))) [] :=
  ⟨by decide, by decide,
    c1_last_request_wins.2.1
      [OrchEvent.issue (RequestDescriptor.mk 1 20 (FilterState.mk [] none)),
        OrchEvent.issue (RequestDescriptor.mk 2 20 (FilterState.mk [] none))]
      2 (FetchOutcome.success [7] 1) (by decide) [] 1 (FetchOutcome.success [9] 1)
      (by decide)⟩

/-- The C6 claim: when the fetch matching the most recently issued request
fails, the error is recorded in the ListResult, loading clears, and the
items and total of the last successful fetch are retained unchanged; the
failure is absorbed by the state transition, never re-raised. -/
theorem c6_error_capture {α : Type} (o : Orch α) (s : Nat) (err : String)
    (h : commitsAt o s) :
    (orchStep o (OrchEvent.resolve s (FetchOutcome.failure err))).result.error = some err ∧
    (orchStep o (OrchEvent.resolve s (FetchOutcome.failure err))).result.loading = false ∧
    (orchStep o (OrchEvent.resolve s (FetchOutcome.failure err))).result.items =
      o.result.items ∧
    (orchStep o (OrchEvent.resolve s (FetchOutcome.failure err))).result.totalItems =
      o.result.totalItems := by
  rw [orchStep_commit o s (FetchOutcome.failure err) h]
  exact ⟨rfl, rfl, rfl, rfl⟩

/-- Witness for C6: one issued request whose fetch fails. -/
theorem c6_error_capture_witness :
    commitsAt (orchStep (orchInit Nat)
      (OrchEvent.issue (RequestDescriptor.mk 1 20 (FilterState.mk [] none)))) 1 ∧
    ((orchStep (orchStep (orchInit Nat)
          (OrchEvent.issue (RequestDescriptor.mk 1 20 (FilterState.mk [] none))))
        (OrchEvent.resolve 1 (FetchOutcome.failure "network error"))).result.error =
        some "network error" ∧
      (orchStep (orchStep (orchInit Nat)
          (OrchEvent.issue (RequestDescriptor.mk 1 20 (FilterState.mk [] none))))
        (OrchEvent.resolve 1 (FetchOutcome.failure "network error"))).result.loading = false ∧
      (orchStep (orchStep (orchInit Nat)
          (OrchEvent.issue (RequestDescriptor.mk 1 20 (FilterState.mk [] none))))
        (OrchEvent.resolve 1 (FetchOutcome.failure "network error"))).result.items =
        (orchStep (orchInit Nat)
          (OrchEvent.issue (RequestDescriptor.mk 1 20 (FilterState.mk [] none)))).result.items ∧
      (orchStep (orchStep (orchInit Nat)
          (OrchEvent.issue (RequestDescriptor.mk 1 20 (FilterState.mk [] none))))
        (OrchEvent.resolve 1 (FetchOutcome.failure "network error"))).result.totalItems =
        (orchStep (orchInit Nat)
          (OrchEvent.issue
            (RequestDescriptor.mk 1 20 (FilterState.mk [] none)))).result.totalItems) :=
  ⟨by decide,
    c6_error_capture
      (orchStep (orchInit Nat)
        (OrchEvent.issue (RequestDescriptor.mk 1 20 (FilterState.mk [] none))))
      1 "network error" (by decide)⟩

/- ## Infinite scroll controller -/

/-- Modelled from the spec: the hook useInfiniteScroll is not present in the
sources (only re-exported), so the controller follows section 4.5 of the
specification; issuedPages records each fetch handed to the collaborator so
that the absence of a fetch is observable. -/
structure InfState (α : Type) where
  items : List α
  page : Nat
  hasMore : Bool
  loading : Bool
  error : Option String
  issuedPages : List Nat
  deriving DecidableEq

/-- Events of the controller: the triggering signal, and resolution of the
in-flight fetch with the returned items or with an error. -/
inductive InfEvent (α : Type) where
  | trigger
  | resolve (xs : List α)
  | resolveErr (e : String)
  deriving DecidableEq

/-- Modelled from the spec: initial controller state before page 1 loads. -/
def infInit (α : Type) : InfState α :=
  { items := [], page := 0, hasMore := true, loading := false, error := none,
    issuedPages := [] }

/-- Modelled from the spec: one controller step. A trigger while loading or
exhausted is ignored outright; otherwise the fetch for page+1 is issued. A
resolution appends the returned items, increments the page and recomputes
hasMore by comparing the returned count with the page size. -/
def infStep {α : Type} (pageSize : Nat) (s : InfState α) : InfEvent α → InfState α
  | .trigger =>
    if s.loading || !s.hasMore then s
    else
      { s with
        loading := true
        issuedPages := s.issuedPages ++ [s.page + 1] }
  | .resolve xs =>
    if s.loading then
      { s with
        items := s.items ++ xs
        page := s.page + 1
        hasMore := xs.length == pageSize
        loading := false }
    else s
  | .resolveErr e =>
    if s.loading then { s with loading := false, error := some e } else s

/-- Run a list of controller events. -/
def infRun {α : Type} (pageSize : Nat) (s : InfState α) (es : List (InfEvent α)) :
    InfState α :=
  es.foldl (infStep pageSize) s

/-- The C7 claim: a trigger during loading or after exhaustion changes
nothing and issues no fetch; an accepted trigger issues exactly the fetch
for page+1; a resolution appends after the previous items in order,
increments the page, and sets hasMore exactly when the returned count equals
the page size; and the 20-then-7 scenario ends with 27 items and no more
pages. -/
theorem c7_infinite_scroll {α : Type} (ps : Nat) (s : InfState α) (xs : List α) :
    (s.loading = true ∨ s.hasMore = false → infStep ps s InfEvent.trigger = s) ∧
    (s.loading = false → s.hasMore = true →
      (infStep ps s InfEvent.trigger).issuedPages = s.issuedPages ++ [s.page + 1] ∧
      (infStep ps s InfEvent.trigger).items = s.items ∧
      (infStep ps s InfEvent.trigger).page = s.page ∧
      (infStep ps s InfEvent.trigger).loading = true) ∧
    (s.loading = true →
      (infStep ps s (InfEvent.resolve xs)).items = s.items ++ xs ∧
      (infStep ps s (InfEvent.resolve xs)).page = s.page + 1 ∧
      ((infStep ps s (InfEvent.resolve xs)).hasMore = true ↔ xs.length = ps)) ∧
    ((infRun 20 (infInit Nat)
        [InfEvent.trigger, InfEvent.resolve (List.range 20)]).hasMore = true ∧
      (infRun 20 (infInit Nat)
        [InfEvent.trigger, InfEvent.resolve (List.range 20), InfEvent.trigger,
          InfEvent.resolve (List.range 7)]).items.length = 27 ∧
      (infRun 20 (infInit Nat)
        [InfEvent.trigger, InfEvent.resolve (List.range 20), InfEvent.trigger,
          InfEvent.resolve (List.range 7)]).hasMore = false) := by
  refine ⟨?_, ?_, ?_, by decide⟩
  · intro h
    rcases h with h | h <;> simp [infStep, h]
  · intro h1 h2
    simp [infStep, h1, h2]
  · intro h
    simp [infStep, h]

/-- Witness for C7: an ignored trigger while loading, an accepted trigger
from the initial state, and a resolution of a loading state. -/
theorem c7_infinite_scroll_witness :
    infStep 20 (InfState.mk ([] : List Nat) 0 true true none [1]) InfEvent.trigger =
      InfState.mk ([] : List Nat) 0 true true none [1] ∧
    ((infStep 20 (infInit Nat) InfEvent.trigger).issuedPages =
        (infInit Nat).issuedPages ++ [(infInit Nat).page + 1] ∧
      (infStep 20 (infInit Nat) InfEvent.trigger).items = (infInit Nat).items ∧
      (infStep 20 (infInit Nat) InfEvent.trigger).page = (infInit Nat).page ∧
      (infStep 20 (infInit Nat) InfEvent.trigger).loading = true) ∧
    ((infStep 20 (InfState.mk ([] : List Nat) 0 true true none [1])
        (InfEvent.resolve [5, 6])).items =
        (InfState.mk ([] : List Nat) 0 true true none [1]).items ++ [5, 6] ∧
      (infStep 20 (InfState.mk ([] : List Nat) 0 true true none [1])
        (InfEvent.resolve [5, 6])).page =
        (InfState.mk ([] : List Nat) 0 true true none [1]).page + 1 ∧
      ((infStep 20 (InfState.mk ([] : List Nat) 0 true true none [1])
          (InfEvent.resolve [5, 6])).hasMore = true ↔
        ([5, 6] : List Nat).length = 20)) :=
  ⟨(c7_infinite_scroll 20 (InfState.mk ([] : List Nat) 0 true true none [1]) [5, 6]).1 (Or.inl rfl),
    (c7_infinite_scroll 20 (infInit Nat) ([] : List Nat)).2.1 rfl rfl,
    (c7_infinite_scroll 20 (InfState.mk ([] : List Nat) 0 true true none [1]) [5, 6]).2.2.1 rfl⟩

/- ## FAQAccordion, from the source -/

/-- Embedded from the source file defining FAQAccordion: toggleFaq over the
set of open FAQ ids. In single-open mode the set becomes empty when the id
was open and the singleton of the id otherwise; in multiple mode the id is
deleted from or added to the set. -/
def toggleFaq (singleOpen : Bool) (openIds : Finset String) (a : String) :
    Finset String :=
  if singleOpen then (if a ∈ openIds then ∅ else {a})
  else (if a ∈ openIds then openIds.erase a else insert a openIds)

/-- The C8 claim: with singleOpen true, toggleFaq leaves at most one id
open, producing the empty set when the id was open and exactly the
singleton of the id otherwise, from any prior open set. -/
theorem c8_single_open_toggle (openIds : Finset String) (a : String) :
    (toggleFaq true openIds a).card ≤ 1 ∧
    (a ∈ openIds → toggleFaq true openIds a = ∅) ∧
    (a ∉ openIds → toggleFaq true openIds a = {a}) := by
  by_cases h : a ∈ openIds <;> simp [toggleFaq, h]

/-- Witness for C8: an open set seeded with two default ids, toggling a
closed id and an open id. -/
theorem c8_single_open_toggle_witness :
    toggleFaq true ({"1", "2"} : Finset String) "3" = {"3"} ∧
    toggleFaq true ({"1", "2"} : Finset String) "1" = ∅ ∧
    (toggleFaq true ({"1", "2"} : Finset String) "3").card ≤ 1 :=
  ⟨(c8_single_open_toggle {"1", "2"} "3").2.2 (by decide),
    (c8_single_open_toggle {"1", "2"} "1").2.1 (by decide),
    (c8_single_open_toggle {"1", "2"} "3").1⟩

/- ## SearchSuggestions, from the source -/

/-- Embedded from src/src/components/search/SearchSuggestions.tsx: the
displayed suggestions are the first maxSuggestions entries of the input
(slice from 0). -/
def displayedSuggestions {α : Type} (maxSuggestions : Nat) (suggestions : List α) :
    List α :=
  suggestions.take maxSuggestions

/-- Keys handled by the keydown listener of SearchSuggestions. -/
inductive SSKey where
  | arrowDown
  | arrowUp
  | enter
  | escape
  | other
  deriving DecidableEq

/-- Embedded from the handleKeyDown switch of SearchSuggestions: the new
selected index after one key event over n displayed suggestions. Every key
is ignored when n is 0; ArrowDown increments or wraps to 0; ArrowUp
decrements or wraps to n - 1; other keys leave the index unchanged. -/
def ssKeyStep (n : Nat) (i : Int) (k : SSKey) : Int :=
  if n = 0 then i
  else
    match k with
    | .arrowDown => if i < (n : Int) - 1 then i + 1 else 0
    | .arrowUp => if i > 0 then i - 1 else (n : Int) - 1
    | _ => i

/-- Embedded from the Enter branch of handleKeyDown: onSelect is invoked
with the selected index exactly when suggestions are displayed and the index
is nonnegative. -/
def ssEnterSelects (n : Nat) (i : Int) : Option Int :=
  if 0 < n ∧ 0 ≤ i then some i else none

/-- Events observed by the component state: a key event, or a change of the
suggestions list (whose effect resets the selected index). -/
inductive SSEvent where
  | key (k : SSKey)
  | newSuggestions (m : Nat)
  deriving DecidableEq

/-- Embedded from the source: the selected-index state machine, over pairs
of displayed count and selected index. -/
def ssStep : Nat × Int → SSEvent → Nat × Int
  | (n, i), .key k => (n, ssKeyStep n i k)
  | (_, _), .newSuggestions m => (m, -1)

/-- Run a list of component events. -/
def ssRun (st : Nat × Int) (es : List SSEvent) : Nat × Int :=
  es.foldl ssStep st

/-- The selected index always lies between -1 and the displayed count minus
one. -/
def ssInv (st : Nat × Int) : Prop :=
  -1 ≤ st.2 ∧ st.2 ≤ (st.1 : Int) - 1

instance (st : Nat × Int) : Decidable (ssInv st) := by
  unfold ssInv
  infer_instance

lemma ssKeyStep_mem (n : Nat) (i : Int) (k : SSKey) (h1 : -1 ≤ i)
    (h2 : i ≤ (n : Int) - 1) :
    -1 ≤ ssKeyStep n i k ∧ ssKeyStep n i k ≤ (n : Int) - 1 := by
  unfold ssKeyStep
  by_cases hn : n = 0
  · rw [if_pos hn]
    omega
  · rw [if_neg hn]
    cases k <;> simp only [] <;> (try split_ifs) <;> omega

lemma ssInv_step (st : Nat × Int) (e : SSEvent) (h : ssInv st) :
    ssInv (ssStep st e) := by
  obtain ⟨n, i⟩ := st
  cases e with
  | key k =>
    obtain ⟨h1, h2⟩ := h
    exact ssKeyStep_mem n i k h1 h2
  | newSuggestions m =>
    show ssInv (m, -1)
    exact ⟨le_refl _, by omega⟩

lemma ssInv_run (st : Nat × Int) (es : List SSEvent) (h : ssInv st) :
    ssInv (ssRun st es) := by
  induction es generalizing st with
  | nil => exact h
  | cons e rest ih => exact ih (ssStep st e) (ssInv_step st e h)

/-- The C9 claim: from a freshly reset state the selected index stays in the
interval from -1 to n - 1 under every event sequence; ArrowDown wraps from
n - 1 to 0 and otherwise increments; ArrowUp wraps to n - 1 from 0 and from
-1 and otherwise decrements; Enter selects only a nonnegative index; keys
are ignored when nothing is displayed; and a change of the suggestions list
resets the index to -1. -/
theorem c9_keyboard_navigation (n m maxS : Nat) (i : Int) (k : SSKey)
    (es : List SSEvent) (l : List Nat) :
    (displayedSuggestions maxS l).length = min maxS l.length ∧
    displayedSuggestions maxS l ++ l.drop maxS = l ∧
    ssInv (ssRun (n, -1) es) ∧
    (0 < n → ssKeyStep n ((n : Int) - 1) SSKey.arrowDown = 0) ∧
    (0 < n → -1 ≤ i → i < (n : Int) - 1 → ssKeyStep n i SSKey.arrowDown = i + 1) ∧
    (0 < n → ssKeyStep n 0 SSKey.arrowUp = (n : Int) - 1) ∧
    (0 < n → ssKeyStep n (-1) SSKey.arrowUp = (n : Int) - 1) ∧
    (0 < n → 0 < i → ssKeyStep n i SSKey.arrowUp = i - 1) ∧
    (∀ j, ssEnterSelects n i = some j → 0 ≤ i) ∧
    (n = 0 → ssKeyStep n i k = i) ∧
    ssStep (n, i) (SSEvent.newSuggestions m) = (m, -1) := by
  refine ⟨List.length_take _ _, List.take_append_drop _ _, ?_, ?_, ?_, ?_, ?_, ?_, ?_, ?_, rfl⟩
  · exact ssInv_run (n, -1) es ⟨le_refl _, by omega⟩
  · intro hn
    unfold ssKeyStep
    rw [if_neg (by omega)]
    simp only []
    split_ifs <;> omega
  · intro hn hi1 hi2
    unfold ssKeyStep
    rw [if_neg (by omega)]
    simp only []
    split_ifs <;> omega
  · intro hn
    unfold ssKeyStep
    rw [if_neg (by omega)]
    simp only []
    split_ifs <;> omega
  · intro hn
    unfold ssKeyStep
    rw [if_neg (by omega)]
    simp only []
    split_ifs <;> omega
  · intro hn hi
    unfold ssKeyStep
    rw [if_neg (by omega)]
    simp only []
    split_ifs <;> omega
  · intro j hj
    unfold ssEnterSelects at hj
    by_cases h : 0 < n ∧ 0 ≤ i
    · exact h.2
    · rw [if_neg h] at hj
      exact absurd hj (by simp)
  · intro hn
    simp [ssKeyStep, hn]

/-- Witness for C9 over two displayed suggestions: a short event trace stays
in range, both wraps fire, the increment fires, keys are ignored when the
list is empty, and a suggestions change resets the index. -/
theorem c9_keyboard_navigation_witness :
    ssInv (ssRun (2, -1) [SSEvent.key SSKey.arrowDown, SSEvent.key SSKey.arrowUp]) ∧
    ssKeyStep 2 ((2 : Int) - 1) SSKey.arrowDown = 0 ∧
    ssKeyStep 2 (-1) SSKey.arrowDown = -1 + 1 ∧
    ssKeyStep 2 0 SSKey.arrowUp = (2 : Int) - 1 ∧
    ssKeyStep 2 (-1) SSKey.arrowUp = (2 : Int) - 1 ∧
    ssKeyStep 2 1 SSKey.arrowUp = 1 - 1 ∧
    ssKeyStep 0 5 SSKey.arrowDown = 5 ∧
    ssStep (2, 0) (SSEvent.newSuggestions 7) = (7, -1) :=
  ⟨(c9_keyboard_navigation 2 7 10 0 SSKey.arrowDown
      [SSEvent.key SSKey.arrowDown, SSEvent.key SSKey.arrowUp] []).2.2.1,
    (c9_keyboard_navigation 2 7 10 0 SSKey.arrowDown [] []).2.2.2.1 (by decide),
    (c9_keyboard_navigation 2 7 10 (-1) SSKey.arrowDown [] []).2.2.2.2.1 (by decide)
      (by decide) (by decide),
    (c9_keyboard_navigation 2 7 10 0 SSKey.arrowDown [] []).2.2.2.2.2.1 (by decide),
    (c9_keyboard_navigation 2 7 10 0 SSKey.arrowDown [] []).2.2.2.2.2.2.1 (by decide),
    (c9_keyboard_navigation 2 7 10 1 SSKey.arrowDown [] []).2.2.2.2.2.2.2.1 (by decide)
      (by decide),
    (c9_keyboard_navigation 0 7 10 5 SSKey.arrowDown [] []).2.2.2.2.2.2.2.2.2.1 rfl,
    (c9_keyboard_navigation 2 7 10 0 SSKey.arrowDown [] []).2.2.2.2.2.2.2.2.2.2⟩

/- ## SimilarItems, from the source -/

/-- Item shape used by SimilarItems: a record with a string id. -/
structure SimilarItem where
  id : String
  deriving DecidableEq

/-- Embedded from the source file defining SimilarItems: the current item is
filtered out only when currentItemId is provided and truthy (a nonempty
string); an absent or empty currentItemId leaves the list unfiltered. -/
def similarFiltered : Option String → List SimilarItem → List SimilarItem
  | some cid, items =>
    if cid.isEmpty then items else items.filter (fun it => it.id ≠ cid)
  | none, items => items

/-- Embedded from the source: the carousel renders the first maxDisplayItems
of the filtered list (slice from 0, default 16). -/
def similarDisplay (maxDisplayItems : Nat) (filtered : List SimilarItem) :
    List SimilarItem :=
  filtered.take maxDisplayItems

/-- Embedded from the source: whether more filtered items exist than the
carousel displays. -/
def similarHasMore (maxDisplayItems : Nat) (filtered : List SimilarItem) : Bool :=
  decide (maxDisplayItems < filtered.length)

/-- Embedded from the source: the View All button renders exactly when more
items exist, the showViewAllButton prop is set, and an onShowAllModalChange
callback was provided. -/
def viewAllShown (maxDisplayItems : Nat) (filtered : List SimilarItem)
    (showViewAllButton hasModalCallback : Bool) : Bool :=
  similarHasMore maxDisplayItems filtered && showViewAllButton && hasModalCallback

/-- Counterexample to C10 as stated: with currentItemId the empty string the
source skips the filter entirely (JavaScript truthiness), so an item whose
id is the empty string is rendered even though its id equals currentItemId;
and with two filtered items, a display limit of one and no modal callback,
the View All control is not offered although the filtered list is strictly
longer than the limit. -/
theorem c10_similar_items_counterexample :
    (SimilarItem.mk "" ∈
        similarDisplay 16 (similarFiltered (some "") [SimilarItem.mk ""]) ∧
      (SimilarItem.mk "").id = "") ∧
    (1 < (similarFiltered none [SimilarItem.mk "a", SimilarItem.mk "b"]).length ∧
      viewAllShown 1 (similarFiltered none [SimilarItem.mk "a", SimilarItem.mk "b"])
        true false = false) := by
  decide

/-- The C10 claim, amended: when currentItemId is a nonempty string no
rendered carousel item carries that id; the carousel shows at most
maxDisplayItems items and is a prefix of the filtered list (input order
preserved); and the View All control is offered exactly when the filtered
list is strictly longer than maxDisplayItems AND the showViewAllButton prop
is set AND a modal callback is provided. -/
theorem c10_similar_items (cid : String) (items : List SimilarItem) (maxD : Nat)
    (svb cb : Bool) (hcid : cid ≠ "") :
    (∀ it ∈ similarDisplay maxD (similarFiltered (some cid) items), it.id ≠ cid) ∧
    (similarDisplay maxD (similarFiltered (some cid) items)).length ≤ maxD ∧
    similarDisplay maxD (similarFiltered (some cid) items) ++
        (similarFiltered (some cid) items).drop maxD =
      similarFiltered (some cid) items ∧
    (viewAllShown maxD (similarFiltered (some cid) items) svb cb = true ↔
      (maxD < (similarFiltered (some cid) items).length ∧ svb = true ∧ cb = true)) := by
  have hemp : cid.isEmpty = false := by
    rw [Bool.eq_false_iff]
    intro h
    exact hcid ((String.isEmpty_iff cid).mp h)
  refine ⟨?_, List.length_take_le _ _, List.take_append_drop _ _, ?_⟩
  · intro it hit
    have h1 : it ∈ similarFiltered (some cid) items := List.take_subset _ _ hit
    rw [similarFiltered, hemp] at h1
    simp only [Bool.false_eq_true, if_false, List.mem_filter, decide_eq_true_eq] at h1
    exact h1.2
  · unfold viewAllShown similarHasMore
    simp [Bool.and_eq_true, decide_eq_true_eq, and_assoc]

/-- Witness for C10: three items, one being the current item, display limit
one, button enabled, callback provided. -/
theorem c10_similar_items_witness :
    (∀ it ∈ similarDisplay 1 (similarFiltered (some "x")
        [SimilarItem.mk "x", SimilarItem.mk "a", SimilarItem.mk "b"]), it.id ≠ "x") ∧
    (similarDisplay 1 (similarFiltered (some "x")
        [SimilarItem.mk "x", SimilarItem.mk "a", SimilarItem.mk "b"])).length ≤ 1 ∧
    similarDisplay 1 (similarFiltered (some "x")
        [SimilarItem.mk "x", SimilarItem.mk "a", SimilarItem.mk "b"]) ++
        (similarFiltered (some "x")
          [SimilarItem.mk "x", SimilarItem.mk "a", SimilarItem.mk "b"]).drop 1 =
      similarFiltered (some "x")
        [SimilarItem.mk "x", SimilarItem.mk "a", SimilarItem.mk "b"] ∧
    (viewAllShown 1 (similarFiltered (some "x")
          [SimilarItem.mk "x", SimilarItem.mk "a", SimilarItem.mk "b"]) true true = true ↔
      (1 < (similarFiltered (some "x")
          [SimilarItem.mk "x", SimilarItem.mk "a", SimilarItem.mk "b"]).length ∧
        true = true ∧ true = true)) :=
  c10_similar_items "x" [SimilarItem.mk "x", SimilarItem.mk "a", SimilarItem.mk "b"]
    1 true true (by decide)
